import Mathlib

set_option maxHeartbeats 1000000

/-!
Shallow embedding of the hadith corpus converter pipeline
(src/hadith/corpus/converter.py and src/hadith/corpus/reverseconverter.py).

Machine-level conventions of the embedding:
  - SQLite NUMERIC record numbers are modelled as Int (the inputs are
    integer hadith numbers; only their linear order matters to the code).
  - SQL NULL is modelled as Option.none; every column the program can leave
    NULL is an Option field.  Columns that every INSERT in the program
    populates (collectionId, sectionId, language, text) are non-optional.
  - A table is a list of rows in rowid (insertion) order; SELECT ... LIMIT 1
    without ORDER BY returns the first row in that order (List.find?).
  - Python truthiness on a TEXT value ("if not parent_section_id") is
    falsy exactly on None and the empty string (pyFalsy below).
-/

/-- Character-list prefix test (mirrors Python str.startswith). -/
def startsWithChars : List Char → List Char → Bool
  | [], _ => true
  | _ :: _, [] => false
  | a :: as, b :: bs => a == b && startsWithChars as bs

/-- Substring occurrence test (mirrors the Python `in` operator on str). -/
def occursIn (needle : List Char) : List Char → Bool
  | [] => needle.isEmpty
  | c :: rest => startsWithChars needle (c :: rest) || occursIn needle rest

/-- hay contains needle as a substring. -/
def strHas (hay needle : String) : Bool := occursIn needle.toList hay.toList

/-- Python str.startswith on String. -/
def strStarts (s pre : String) : Bool := startsWithChars pre.toList s.toList

/-- Python str.endswith on String. -/
def strEnds (s suf : String) : Bool :=
  startsWithChars suf.toList.reverse s.toList.reverse

/-- Python str.replace (all non-overlapping occurrences, left to right),
on char lists.  The program only calls it with non-empty patterns. -/
def replaceChars (pat rep : List Char) : List Char → List Char
  | [] => []
  | c :: rest =>
    if pat ≠ [] && startsWithChars pat (c :: rest) then
      rep ++ replaceChars pat rep (rest.drop (pat.length - 1))
    else
      c :: replaceChars pat rep rest
termination_by l => l.length
decreasing_by
  · simp [List.length_drop]; omega
  · simp

/-- Python str.replace on String. -/
def strReplace (s pat rep : String) : String :=
  String.mk (replaceChars pat.toList rep.toList s.toList)

/-- The apostrophe character (spelled via its code point). -/
def apos : Char := Char.ofNat 39

/-- The normalization performed at the top of get_collection_id:
name.lower().replace("_","").replace("-","").replace(" ","").replace("'",""). -/
def normalizeName (s : String) : String :=
  String.mk ((s.toList.map Char.toLower).filter
    (fun c => !(c == ' ' || c == '-' || c == '_' || c == apos)))

/-- converter.py get_collection_id: the fixed if-chain over normalized
substrings, first match wins; None when nothing matches. -/
def get_collection_id (name : String) : Option Nat :=
  let n := normalizeName name
  if strHas n "bukhari" then some 1
  else if strHas n "muslim" then some 2
  else if strHas n "abudawud" || strHas n "abidaud" || strHas n "abidawood" then some 3
  else if strHas n "tirmidhi" || strHas n "tirmidzi" then some 4
  else if strHas n "nasai" || strHas n "annasai" then some 5
  else if strHas n "ibnmajah" || strHas n "ibnumajah" || strHas n "ibnmajh" then some 6
  else if strHas n "riyad" || strHas n "riyadus" || strHas n "riyadh" ||
          strHas n "riyadussalihin" || strHas n "riyadussalihin" then some 10
  else if strHas n "nawawi40" || strHas n "arbain" || strHas n "nawawi" ||
          strHas n "arbainannawawi" then some 11
  else none

/-- The same matching table written the way the spec describes it: an ordered
list of (alternative canonical substrings, id) rules.  Used to state that the
if-chain implements first-match-wins over this precedence list. -/
def collectionRules : List (List String × Nat) :=
  [ (["bukhari"], 1),
    (["muslim"], 2),
    (["abudawud", "abidaud", "abidawood"], 3),
    (["tirmidhi", "tirmidzi"], 4),
    (["nasai", "annasai"], 5),
    (["ibnmajah", "ibnumajah", "ibnmajh"], 6),
    (["riyad", "riyadus", "riyadh", "riyadussalihin", "riyadussalihin"], 10),
    (["nawawi40", "arbain", "nawawi", "arbainannawawi"], 11) ]

/-- First rule (in precedence order) one of whose substrings occurs in the
normalized name; its id, else none. -/
def firstRuleMatch (normalized : String) : Option Nat :=
  (collectionRules.find? (fun r => r.1.any (fun sub => strHas normalized sub))).map
    (fun r => r.2)

/-- converter.py get_hadith_data_lang. -/
def get_hadith_data_lang (filename : String) : Option String :=
  if strStarts filename "ara-" then some "arabic"
  else if strStarts filename "eng-" then some "english"
  else if strStarts filename "ind-" then some "bahasa"
  else none

/-- converter.py get_collection_info_lang. -/
def get_collection_info_lang (filename : String) : Option String :=
  if filename == "eng-collections.json" then some "english"
  else if filename == "ind-collections.json" then some "bahasa"
  else none

/-!  JSON values and serialization (json.dumps), as far as the converter
needs them: grades / reference / narration are arbitrary JSON fragments and
are stored as their serialized text.  String escaping inside dumps is elided
(no claim depends on it); what matters is that dumps of Python None is the
four-character string "null". -/

inductive Jv where
  | null
  | bool (b : Bool)
  | num (n : Int)
  | str (s : String)
  | arr (xs : List Jv)
  | obj (kvs : List (String × Jv))

mutual
/-- json.dumps on a JSON value (default separators). -/
def dumps : Jv → String
  | .null => "null"
  | .bool true => "true"
  | .bool false => "false"
  | .num n => toString n
  | .str s => "\"" ++ s ++ "\""
  | .arr xs => "[" ++ dumpsList xs ++ "]"
  | .obj kvs => "\x7b" ++ dumpsObj kvs ++ "\x7d"

def dumpsList : List Jv → String
  | [] => ""
  | [x] => dumps x
  | x :: y :: rest => dumps x ++ ", " ++ dumpsList (y :: rest)

def dumpsObj : List (String × Jv) → String
  | [] => ""
  | [(k, v)] => "\"" ++ k ++ "\": " ++ dumps v
  | (k, v) :: p :: rest => "\"" ++ k ++ "\": " ++ dumps v ++ ", " ++ dumpsObj (p :: rest)
end

/-- json.dumps applied to h.get(...): an absent field is Python None and
serializes to the string "null". -/
def dumpsOpt : Option Jv → String
  | none => "null"
  | some j => dumps j

/-- Python str() of an optional numeric with default "" —
str(h.get("hadithnumber", "")). -/
def pyStrOfOptInt : Option Int → String
  | none => ""
  | some n => toString n

/-- Python f-string rendering of sub.get("fileIndex"): None prints as "None";
a present value prints as itself (we carry its string rendering). -/
def pyStrOpt : Option String → String
  | none => "None"
  | some s => s

/-- Python truthiness of an optional TEXT value: falsy iff None or "". -/
def pyFalsy : Option String → Bool
  | none => true
  | some s => s.isEmpty

/-! # The relational store -/

/-- Row of hadithCollection (PRIMARY KEY (id, language)). -/
structure CollectionRow where
  id : Nat
  language : String
  title : Option String
  author : Option String
  realName : Option String
  description : Option String
  hadithCount : Option Int
deriving Repr, DecidableEq

/-- Row of hadithData. -/
structure RecordRow where
  collectionId : Nat
  id : Option Int
  arabicNumber : Option Int
  text : String
  language : String
  grades : Option String
  reference : Option String
  narration : Option String
  tldr : Option String
  narrator : Option String
  summary : Option String
deriving Repr, DecidableEq

/-- Row of hadithSection. -/
structure SectionRow where
  collectionId : Nat
  sectionId : String
  language : String
  sectionTitle : Option String
  hadithNumberFirst : Option Int
  hadithNumberLast : Option Int
  arabicNumberFirst : Option Int
  arabicNumberLast : Option Int
  parentSectionId : Option String
  subsectionCount : Option Nat
deriving Repr, DecidableEq

/-- The three tables, each a list of rows in rowid (insertion) order. -/
structure CorpusDb where
  collections : List CollectionRow
  records : List RecordRow
  sections : List SectionRow
deriving Repr, DecidableEq

def emptyDb : CorpusDb := ⟨[], [], []⟩

/-! # Document shapes consumed by the converter -/

/-- One record object of an input document (flat or metadata form).
Fields are Option: an absent JSON key is none.  grades/reference/narration
are arbitrary JSON fragments. -/
structure HadithObj where
  hadithnumber : Option Int
  arabicnumber : Option Int
  text : Option String
  grades : Option Jv
  reference : Option Jv
  narration : Option Jv
  tldr : Option String
  narrator : Option String

/-- metadata.section_details entry: d.get("hadithnumber_first") etc. -/
structure SectionDetail where
  hadithnumber_first : Option Int
  hadithnumber_last : Option Int
  arabicnumber_first : Option Int
  arabicnumber_last : Option Int
deriving Repr, DecidableEq

/-- The default {} detail used when section_details has no entry for a key. -/
def emptyDetail : SectionDetail := ⟨none, none, none, none⟩

/-- metadata block of the object-shaped document: sections (id to title) and
section_details (id to bounds), as association lists in JSON key order. -/
structure DocMetadata where
  sections : List (String × Option String)
  section_details : List (String × SectionDetail)

/-- Parsed JSON root of a hadith data file: a flat list of records, or an
object carrying a "hadiths" list and a "metadata" object (either possibly
absent, defaulting to empty). -/
inductive HadithDoc where
  | flat (hadiths : List HadithObj)
  | metaForm (hadiths : List HadithObj) (metadata : DocMetadata)

/-- One entry of a collections info file. -/
structure CollectionEntry where
  book_name : Option String
  author : Option String
  real_name : Option String
  description : Option String
  hadith_count : Option Int

/-! # converter.py: collection info import -/

/-- mkCollectionRow: the tuple bound by the INSERT OR REPLACE in
process_collection_info. -/
def mkCollectionRow (cid : Nat) (lang : String) (e : CollectionEntry) : CollectionRow :=
  { id := cid, language := lang, title := e.book_name, author := e.author,
    realName := e.real_name, description := e.description,
    hadithCount := e.hadith_count }

/-- INSERT OR REPLACE keyed by (id, language): SQLite deletes any
conflicting row and inserts the new row (at the end, a fresh rowid). -/
def upsertCollection (r : CollectionRow) (rows : List CollectionRow) :
    List CollectionRow :=
  (rows.filter (fun x => !(x.id == r.id && x.language == r.language))) ++ [r]

/-- Loop body of process_collection_info: resolve book_name, skip on
falsy (None) id, else INSERT OR REPLACE. -/
def stepCollection (lang : String) (db : CorpusDb) (e : CollectionEntry) : CorpusDb :=
  match get_collection_id (e.book_name.getD "") with
  | none => db
  | some cid =>
    { db with collections := upsertCollection (mkCollectionRow cid lang e) db.collections }

/-- converter.py process_collection_info: reads data.get("kutub_al_sittah", [])
from the parsed JSON object (an association list of family key to entry list)
and upserts each resolvable entry. -/
def process_collection_info (lang : String)
    (doc : List (String × List CollectionEntry)) (db : CorpusDb) : CorpusDb :=
  ((doc.lookup "kutub_al_sittah").getD []).foldl (stepCollection lang) db

/-! # converter.py: hadith data + top-level section import -/

/-- The hadithData row inserted for one source record h:
  id           = h.get("hadithnumber")
  arabicNumber = h.get("arabicnumber")
  text         = h.get("text", "")
  grades/reference/narration = json.dumps(h.get(...)) — always a string,
                 the string "null" when the field is absent
  tldr/narrator = h.get(...) — NULL when absent
  summary      = summary_map.get(str(h.get("hadithnumber", "")), "")
                 — always a string, "" when no summary matches. -/
def mkRecordRow (cid : Nat) (lang : String) (smap : List (String × String))
    (h : HadithObj) : RecordRow :=
  { collectionId := cid,
    id := h.hadithnumber,
    arabicNumber := h.arabicnumber,
    text := h.text.getD "",
    language := lang,
    grades := some (dumpsOpt h.grades),
    reference := some (dumpsOpt h.reference),
    narration := some (dumpsOpt h.narration),
    tldr := h.tldr,
    narrator := h.narrator,
    summary := some ((smap.lookup (pyStrOfOptInt h.hadithnumber)).getD "") }

/-- The top-level hadithSection row inserted for one metadata section entry
(sid, title), with bounds looked up in section_details (default {}):
parentSectionId and subsectionCount are inserted NULL. -/
def mkTopSectionRow (cid : Nat) (lang : String)
    (details : List (String × SectionDetail)) (p : String × Option String) :
    SectionRow :=
  let d := (details.lookup p.1).getD emptyDetail
  { collectionId := cid, sectionId := p.1, language := lang,
    sectionTitle := p.2,
    hadithNumberFirst := d.hadithnumber_first,
    hadithNumberLast := d.hadithnumber_last,
    arabicNumberFirst := d.arabicnumber_first,
    arabicNumberLast := d.arabicnumber_last,
    parentSectionId := none, subsectionCount := none }

/-- converter.py process_hadith_data: resolve the collection id from the
file basename (skip the file when unresolved), then append one hadithData
row per record and one top-level hadithSection row per metadata section.
smap is the summary map returned by load_summaries (a filesystem side
input; empty when no summary file exists). -/
def process_hadith_data (basename lang : String) (smap : List (String × String))
    (doc : HadithDoc) (db : CorpusDb) : CorpusDb :=
  match get_collection_id basename with
  | none => db
  | some cid =>
    let hadiths := match doc with
      | .flat hs => hs
      | .metaForm hs _ => hs
    let md := match doc with
      | .flat _ => (⟨[], []⟩ : DocMetadata)
      | .metaForm _ m => m
    { db with
      records := db.records ++ hadiths.map (mkRecordRow cid lang smap),
      sections := db.sections ++
        md.sections.map (mkTopSectionRow cid lang md.section_details) }

/-! # converter.py: subsection processing (the Section Hierarchy Resolver) -/

/-- One entry of a subsection descriptor file.  fileIndex carries the
f-string rendering of the JSON value (none when the key is absent). -/
structure SubsectionDescriptor where
  fileIndex : Option String
  sectionTitle : Option String
  hadithNumberFirst : Option Int
  hadithNumberLast : Option Int
deriving Repr, DecidableEq

/-- The containment query: first top-level row of the same collection and
language whose non-NULL bounds satisfy first <= hFirst <= last
(SELECT ... LIMIT 1 in rowid order). -/
def findContainingParent (cid : Nat) (lang : String) (hFirst : Int)
    (secs : List SectionRow) : Option String :=
  (secs.find? (fun s =>
    s.collectionId == cid && s.language == lang &&
    s.parentSectionId == none &&
    (match s.hadithNumberFirst, s.hadithNumberLast with
     | some f, some l => decide (f ≤ hFirst) && decide (hFirst ≤ l)
     | _, _ => false))).map (fun s => s.sectionId)

/-- The fallback query exactly as the code binds it: parameters
(h_last, h_first) against ( ? <= hadithNumberLast AND ? >= hadithNumberFirst ),
i.e. it requires h_last <= section.last AND h_first >= section.first;
a NULL on either side of a comparison makes the row not match. -/
def findFallbackParent (cid : Nat) (lang : String) (hFirst : Int)
    (hLast : Option Int) (secs : List SectionRow) : Option String :=
  (secs.find? (fun s =>
    s.collectionId == cid && s.language == lang &&
    s.parentSectionId == none &&
    (match hLast, s.hadithNumberLast with
     | some hl, some sl => decide (hl ≤ sl)
     | _, _ => false) &&
    (match s.hadithNumberFirst with
     | some f => decide (hFirst ≥ f)
     | none => false))).map (fun s => s.sectionId)

/-- The hadithSection row inserted for a matched subsection: the INSERT
names only seven columns, so arabicNumberFirst/Last and subsectionCount
are NULL. -/
def mkSubSectionRow (cid : Nat) (lang : String) (parent : String)
    (sub : SubsectionDescriptor) (hFirst : Int) : SectionRow :=
  { collectionId := cid,
    sectionId := parent ++ "-" ++ pyStrOpt sub.fileIndex,
    language := lang,
    sectionTitle := sub.sectionTitle,
    hadithNumberFirst := some hFirst,
    hadithNumberLast := sub.hadithNumberLast,
    arabicNumberFirst := none, arabicNumberLast := none,
    parentSectionId := some parent, subsectionCount := none }

/-- The resolver's parent choice for one descriptor: the containment query
first, and only when it returns no row, the fallback query. -/
def resolveParent (cid : Nat) (lang : String) (hFirst : Int)
    (hLast : Option Int) (secs : List SectionRow) : Option String :=
  match findContainingParent cid lang hFirst secs with
  | some p => some p
  | none => findFallbackParent cid lang hFirst hLast secs

/-- Loop body of process_subsection_file over one descriptor, threading
(db, inserted, skipped).  Skips when hadithNumberFirst is absent; otherwise
tries containment then the fallback query; "if not parent_section_id"
skips on a falsy (None or empty) parent id; else inserts one row. -/
def stepSubsection (cid : Nat) (lang : String)
    (acc : CorpusDb × Nat × Nat) (sub : SubsectionDescriptor) :
    CorpusDb × Nat × Nat :=
  let db := acc.1
  let inserted := acc.2.1
  let skipped := acc.2.2
  match sub.hadithNumberFirst with
  | none => (db, inserted, skipped + 1)
  | some hFirst =>
    let parent := resolveParent cid lang hFirst sub.hadithNumberLast db.sections
    if pyFalsy parent then
      (db, inserted, skipped + 1)
    else
      match parent with
      | none => (db, inserted, skipped + 1)
      | some p =>
        ({ db with sections := db.sections ++ [mkSubSectionRow cid lang p sub hFirst] },
         inserted + 1, skipped)

/-- The collection id resolution at the top of process_subsection_file:
the basename itself, retrying with "-subsection.json" replaced by ".json". -/
def resolveSubsectionCid (basename : String) : Option Nat :=
  match get_collection_id basename with
  | some c => some c
  | none =>
    if strEnds basename "-subsection.json" then
      get_collection_id (strReplace basename "-subsection.json" ".json")
    else none

/-- The language resolution of process_subsection_file: the basename,
retrying with "-subsection" removed, else "unknown". -/
def resolveSubsectionLang (basename : String) : String :=
  match get_hadith_data_lang basename with
  | some l => l
  | none =>
    match get_hadith_data_lang (strReplace basename "-subsection" "") with
    | some l => l
    | none => "unknown"

/-- converter.py process_subsection_file: resolve the collection id and the
language from the basename (skipping the file when the id is unresolved),
then fold the descriptor list. -/
def process_subsection_file (basename : String)
    (subs : List SubsectionDescriptor) (db : CorpusDb) : CorpusDb :=
  match resolveSubsectionCid basename with
  | none => db
  | some c =>
    (subs.foldl (stepSubsection c (resolveSubsectionLang basename))
      (db, 0, 0)).1

/-! # converter.py: aggregate maintenance -/

/-- COUNT(T2.sectionId) of rows referencing r as parent within the same
collection and language (sectionId is never NULL in rows this program
writes, so COUNT over the column is the row count of the filter). -/
def childCount (secs : List SectionRow) (r : SectionRow) : Nat :=
  (secs.filter (fun t =>
    t.parentSectionId == some r.sectionId &&
    t.collectionId == r.collectionId &&
    t.language == r.language)).length

/-- converter.py update_subsection_counts: UPDATE every row with
parentSectionId IS NULL (the collectionId/language IS NOT NULL guards are
vacuous here: those columns are non-optional because every INSERT of the
program populates them), setting subsectionCount to the live child count. -/
def update_subsection_counts (db : CorpusDb) : CorpusDb :=
  { db with sections := db.sections.map (fun r =>
      if r.parentSectionId == none then
        { r with subsectionCount := some (childCount db.sections r) }
      else r) }

/-! # reverseconverter.py: export of the combined hadith document -/

/-- Insertion into a list sorted by le (used to model ORDER BY). -/
def insertSorted (le : α → α → Bool) (a : α) : List α → List α
  | [] => [a]
  | b :: bs => if le a b then a :: b :: bs else b :: insertSorted le a bs

/-- Insertion sort by le (models ORDER BY; only membership matters to the
claims, so the exact sort algorithm is immaterial). -/
def sortByLe (le : α → α → Bool) : List α → List α
  | [] => []
  | a :: as => insertSorted le a (sortByLe le as)

/-- SQLite ordering on a nullable numeric column: NULL sorts first. -/
def leOptInt : Option Int → Option Int → Bool
  | none, _ => true
  | some _, none => false
  | some a, some b => decide (a ≤ b)

/-- SQLite ordering on a TEXT column (byte order; lexicographic here). -/
def leStr (a b : String) : Bool := decide (a ≤ b)

/-- COLLECTION_NAMES of reverseconverter.py. -/
def collectionNames : List (Nat × String) :=
  [ (1, "bukhari"), (2, "muslim"), (3, "abudawud"), (4, "tirmidhi"),
    (5, "nasai"), (6, "ibnmajah"), (10, "riyadussalihin"), (11, "nawawi40") ]

/-- One exported record object.  The side-fields (grades, reference,
narration, tldr, narrator) are reconstructed too by the exporter but no
claim compares them, so the embedding keeps the identifying fields the
round-trip claim is about. -/
structure ExportHadith where
  hadithnumber : Option Int
  arabicnumber : Option Int
  text : String
deriving Repr, DecidableEq

/-- The combined document the exporter writes for one (collection,
language) pair: the record list plus the rebuilt metadata block. -/
structure ExportDoc where
  hadiths : List ExportHadith
  sections : List (String × Option String)
  section_details : List (String × SectionDetail)
deriving Repr, DecidableEq

/-- reverseconverter.py export_hadith_data, restricted to one requested
(cid, lang) pair: the pair is exported only when it appears among the
DISTINCT (collectionId, language) combinations of hadithData (i.e. it has
at least one record row) and its id is a known COLLECTION_NAMES key;
records are listed ORDER BY id, top-level sections ORDER BY sectionId. -/
def export_hadith_pair (cid : Nat) (lang : String) (db : CorpusDb) :
    Option ExportDoc :=
  if (collectionNames.lookup cid).isNone then none
  else
    let recs := db.records.filter (fun r =>
      r.collectionId == cid && r.language == lang)
    if recs.isEmpty then none
    else
      let recsSorted := sortByLe (fun a b => leOptInt a.id b.id) recs
      let secs := sortByLe (fun a b => leStr a.sectionId b.sectionId)
        (db.sections.filter (fun s =>
          s.collectionId == cid && s.language == lang &&
          s.parentSectionId == none))
      some
        { hadiths := recsSorted.map (fun r =>
            { hadithnumber := r.id, arabicnumber := r.arabicNumber,
              text := r.text }),
          sections := secs.map (fun s => (s.sectionId, s.sectionTitle)),
          section_details := secs.map (fun s =>
            (s.sectionId,
             ⟨s.hadithNumberFirst, s.hadithNumberLast,
              s.arabicNumberFirst, s.arabicNumberLast⟩)) }

/-! # Helper lemmas -/

theorem mem_insertSorted {le : α → α → Bool} {a x : α} {l : List α} :
    x ∈ insertSorted le a l ↔ x = a ∨ x ∈ l := by
  induction l with
  | nil => simp [insertSorted]
  | cons b bs ih =>
    simp only [insertSorted]
    by_cases h : le a b = true
    · simp [h]
    · simp only [if_neg h, List.mem_cons, ih]
      tauto

theorem mem_sortByLe {le : α → α → Bool} {x : α} {l : List α} :
    x ∈ sortByLe le l ↔ x ∈ l := by
  induction l with
  | nil => simp [sortByLe]
  | cons a as ih =>
    simp only [sortByLe, mem_insertSorted, List.mem_cons, ih]

theorem get_collection_id_eq_rules (name : String) :
    get_collection_id name = firstRuleMatch (normalizeName name) := by
  unfold get_collection_id firstRuleMatch collectionRules
  generalize normalizeName name = n
  simp only [List.find?, List.any, Bool.or_false, Bool.or_assoc, Bool.or_self]
  by_cases c1 : strHas n "bukhari" = true
  case pos => simp [c1]
  case neg =>
  rw [Bool.not_eq_true] at c1
  simp only [c1]
  by_cases c2 : strHas n "muslim" = true
  case pos => simp [c2]
  case neg =>
  rw [Bool.not_eq_true] at c2
  simp only [c2]
  by_cases c3 : (strHas n "abudawud" || (strHas n "abidaud" || strHas n "abidawood")) = true
  case pos => simp [c3]
  case neg =>
  rw [Bool.not_eq_true] at c3
  simp only [c3]
  by_cases c4 : (strHas n "tirmidhi" || strHas n "tirmidzi") = true
  case pos => simp [c4]
  case neg =>
  rw [Bool.not_eq_true] at c4
  simp only [c4]
  by_cases c5 : (strHas n "nasai" || strHas n "annasai") = true
  case pos => simp [c5]
  case neg =>
  rw [Bool.not_eq_true] at c5
  simp only [c5]
  by_cases c6 : (strHas n "ibnmajah" || (strHas n "ibnumajah" || strHas n "ibnmajh")) = true
  case pos => simp [c6]
  case neg =>
  rw [Bool.not_eq_true] at c6
  simp only [c6]
  by_cases c7 : (strHas n "riyad" || (strHas n "riyadus" || (strHas n "riyadh" ||
      strHas n "riyadussalihin"))) = true
  case pos => simp [c7]
  case neg =>
  rw [Bool.not_eq_true] at c7
  simp only [c7]
  by_cases c8 : (strHas n "nawawi40" || (strHas n "arbain" || (strHas n "nawawi" ||
      strHas n "arbainannawawi"))) = true
  case pos => simp [c8]
  case neg =>
  rw [Bool.not_eq_true] at c8
  simp [c8]

theorem get_collection_id_bounds (name : String) (i : Nat)
    (h : get_collection_id name = some i) : 0 < i ∧ i ≤ 11 := by
  rw [get_collection_id_eq_rules] at h
  unfold firstRuleMatch at h
  cases hf : collectionRules.find?
      (fun r => r.1.any (fun sub => strHas (normalizeName name) sub)) with
  | none => rw [hf] at h; simp at h
  | some r =>
    rw [hf] at h
    have hm : r ∈ collectionRules := List.mem_of_find?_eq_some hf
    simp only [collectionRules, List.mem_cons, List.not_mem_nil, or_false] at hm
    rcases hm with h2 | h2 | h2 | h2 | h2 | h2 | h2 | h2 <;> subst h2 <;>
      simp_all <;> omega

theorem unresolved_file_skipped (basename lang : String)
    (smap : List (String × String)) (doc : HadithDoc) (db : CorpusDb)
    (h : get_collection_id basename = none) :
    process_hadith_data basename lang smap doc db = db := by
  unfold process_hadith_data
  rw [h]

/-! # Claim theorems -/

/-- C9: the Collection Identity Resolver normalizes a raw name by
lowercasing and dropping spaces, hyphens, underscores and apostrophes, then
returns the id of the first rule in the fixed precedence order whose
canonical substring occurs in the normalized name; every id it returns is a
small positive integer (between 1 and 11); when no rule matches it returns
none (it is a total function, so it cannot raise), and the caller
process_hadith_data then leaves the store unchanged (the file is skipped,
the run continues). -/
theorem C9_collection_identity_resolver :
    (∀ name, get_collection_id name = firstRuleMatch (normalizeName name)) ∧
    (∀ name i, get_collection_id name = some i → 0 < i ∧ i ≤ 11) ∧
    (∀ basename lang smap doc db, get_collection_id basename = none →
      process_hadith_data basename lang smap doc db = db) :=
  ⟨get_collection_id_eq_rules,
   get_collection_id_bounds,
   fun basename lang smap doc db h =>
     unresolved_file_skipped basename lang smap doc db h⟩

/-- C9 witness: the resolver at the concrete names "eng-bukhari.json"
(resolves to 1, a small positive id) and "unknown-book.json" (unresolved,
and the caller leaves the store unchanged). -/
theorem C9_witness :
    (0 < 1 ∧ 1 ≤ 11) ∧
    process_hadith_data "unknown-book.json" "english" [] (.flat []) emptyDb
      = emptyDb :=
  ⟨C9_collection_identity_resolver.2.1 "eng-bukhari.json" 1 (by decide),
   C9_collection_identity_resolver.2.2 "unknown-book.json" "english" [] (.flat [])
     emptyDb (by decide)⟩

/-- C4 counterexample: a source record with every side-field absent.  The
converter stores json.dumps(None), the four-character string "null", in the
grades column (likewise reference and narration) — a non-null serialized
placeholder — and stores the empty string in the summary column, so the
claim that absent side-fields are stored as null is false at this input. -/
theorem C4_counterexample :
    (mkRecordRow 1 "english" []
      ⟨some 7, none, some "body", none, none, none, none, none⟩).grades
        = some "null" ∧
    (mkRecordRow 1 "english" []
      ⟨some 7, none, some "body", none, none, none, none, none⟩).grades
        ≠ none ∧
    (mkRecordRow 1 "english" []
      ⟨some 7, none, some "body", none, none, none, none, none⟩).summary
        = some "" := by
  refine ⟨rfl, ?_, rfl⟩
  decide

/-- C4 amended: of the side-fields of an imported record, only tldr and
narrator are stored as null when absent; absent grades, reference and
narration are stored as the serialized text "null" (json.dumps of Python
None), and a record with no matching summary gets the empty string, never
null, in the summary column. -/
theorem C4_amended_side_field_storage (cid : Nat) (lang : String)
    (smap : List (String × String)) (h : HadithObj) :
    (h.grades = none → (mkRecordRow cid lang smap h).grades = some "null") ∧
    (h.reference = none → (mkRecordRow cid lang smap h).reference = some "null") ∧
    (h.narration = none → (mkRecordRow cid lang smap h).narration = some "null") ∧
    (h.tldr = none → (mkRecordRow cid lang smap h).tldr = none) ∧
    (h.narrator = none → (mkRecordRow cid lang smap h).narrator = none) ∧
    (smap.lookup (pyStrOfOptInt h.hadithnumber) = none →
      (mkRecordRow cid lang smap h).summary = some "") := by
  refine ⟨?_, ?_, ?_, ?_, ?_, ?_⟩ <;> intro hh <;>
    simp [mkRecordRow, dumpsOpt, hh]

/-- C4 witness: the amended statement evaluated on a concrete record with
absent grades and absent tldr. -/
theorem C4_witness :
    (mkRecordRow 2 "bahasa" []
      ⟨some 5, none, some "t", none, none, none, none, none⟩).grades
        = some "null" ∧
    (mkRecordRow 2 "bahasa" []
      ⟨some 5, none, some "t", none, none, none, none, none⟩).tldr = none :=
  ⟨(C4_amended_side_field_storage 2 "bahasa" []
      ⟨some 5, none, some "t", none, none, none, none, none⟩).1 rfl,
   (C4_amended_side_field_storage 2 "bahasa" []
      ⟨some 5, none, some "t", none, none, none, none, none⟩).2.2.2.1 rfl⟩

/-! Aggregate maintainer lemmas: the UPDATE only rewrites subsectionCount,
so the grouping fields every count depends on are untouched. -/

/-- The per-row function applied by update_subsection_counts. -/
def countFix (secs : List SectionRow) (r : SectionRow) : SectionRow :=
  if r.parentSectionId == none then
    { r with subsectionCount := some (childCount secs r) }
  else r

theorem update_subsection_counts_eq_map (db : CorpusDb) :
    (update_subsection_counts db).sections =
      db.sections.map (countFix db.sections) := by
  rfl

theorem countFix_preserves (secs : List SectionRow) (r : SectionRow) :
    (countFix secs r).sectionId = r.sectionId ∧
    (countFix secs r).collectionId = r.collectionId ∧
    (countFix secs r).language = r.language ∧
    (countFix secs r).parentSectionId = r.parentSectionId := by
  unfold countFix
  by_cases h : r.parentSectionId == none <;> simp [h]

theorem childCount_map_countFix (secs base : List SectionRow) (r : SectionRow) :
    childCount (secs.map (countFix base)) r = childCount secs r := by
  unfold childCount
  rw [← List.countP_eq_length_filter, ← List.countP_eq_length_filter,
    List.countP_map]
  refine List.countP_congr ?_
  intro t _
  have h := countFix_preserves base t
  simp only [Function.comp]
  rw [h.2.1, h.2.2.1, h.2.2.2]

theorem childCount_agrees (secs : List SectionRow) (r s : SectionRow)
    (h1 : r.sectionId = s.sectionId) (h2 : r.collectionId = s.collectionId)
    (h3 : r.language = s.language) :
    childCount secs r = childCount secs s := by
  unfold childCount
  rw [h1, h2, h3]

theorem corpusDb_eq (a b : CorpusDb) (h1 : a.collections = b.collections)
    (h2 : a.records = b.records) (h3 : a.sections = b.sections) : a = b := by
  cases a; cases b; simp_all

theorem countFix_of_top (secs : List SectionRow) (r : SectionRow)
    (h0 : r.parentSectionId = none) :
    countFix secs r = { r with subsectionCount := some (childCount secs r) } := by
  unfold countFix
  rw [show (r.parentSectionId == none) = true by simp [h0]]
  simp

theorem countFix_of_sub (secs : List SectionRow) (r : SectionRow)
    (h0 : r.parentSectionId ≠ none) :
    countFix secs r = r := by
  unfold countFix
  rw [show (r.parentSectionId == none) = false by simp [h0]]
  simp

theorem update_subsection_counts_idem (db : CorpusDb) :
    update_subsection_counts (update_subsection_counts db)
      = update_subsection_counts db := by
  refine corpusDb_eq _ _ rfl rfl ?_
  rw [update_subsection_counts_eq_map (update_subsection_counts db)]
  rw [update_subsection_counts_eq_map db, List.map_map]
  refine List.map_congr_left ?_
  intro r0 _
  simp only [Function.comp]
  by_cases h0 : r0.parentSectionId = none
  · rw [countFix_of_top db.sections r0 h0]
    rw [countFix_of_top (db.sections.map (countFix db.sections))
      { r0 with subsectionCount := some (childCount db.sections r0) } h0]
    rw [childCount_map_countFix]
    rfl
  · rw [countFix_of_sub db.sections r0 h0, countFix_of_sub _ r0 h0]

/-- C6: after the Aggregate Maintainer runs, every top-level section row
(parentSectionId null) carries subsectionCount equal to the number of
section rows of the resulting store whose parentSectionId equals its
sectionId within the same collection id and language; and the recompute is
idempotent — running it twice in a row yields the same store — for any
store contents. -/
theorem C6_aggregate_correctness :
    (∀ (db : CorpusDb) (r : SectionRow),
      r ∈ (update_subsection_counts db).sections → r.parentSectionId = none →
      r.subsectionCount
        = some (childCount (update_subsection_counts db).sections r)) ∧
    (∀ db : CorpusDb,
      update_subsection_counts (update_subsection_counts db)
        = update_subsection_counts db) := by
  refine ⟨?_, update_subsection_counts_idem⟩
  intro db r hr hp
  rw [update_subsection_counts_eq_map] at hr
  rw [update_subsection_counts_eq_map, childCount_map_countFix]
  obtain ⟨r0, hr0, rfl⟩ := List.mem_map.mp hr
  by_cases h0 : r0.parentSectionId = none
  · rw [countFix_of_top db.sections r0 h0]
    rfl
  · exfalso
    have := (countFix_preserves db.sections r0).2.2.2
    rw [this] at hp
    exact h0 hp

/-- C6 witness: a store with one top-level section and one subsection
referencing it; after the recompute the top-level row carries count 1. -/
theorem C6_witness :
    (⟨1, "1", "english", some "T", some 1, some 10, none, none, none,
        some 1⟩ : SectionRow).subsectionCount
      = some (childCount
          (update_subsection_counts
            ⟨[], [],
             [⟨1, "1", "english", some "T", some 1, some 10, none, none,
               none, none⟩,
              ⟨1, "1-1", "english", some "S", some 2, some 3, none, none,
               some "1", none⟩]⟩).sections
          ⟨1, "1", "english", some "T", some 1, some 10, none, none, none,
           some 1⟩) :=
  C6_aggregate_correctness.1
    ⟨[], [],
     [⟨1, "1", "english", some "T", some 1, some 10, none, none, none, none⟩,
      ⟨1, "1-1", "english", some "S", some 2, some 3, none, none, some "1",
       none⟩]⟩
    ⟨1, "1", "english", some "T", some 1, some 10, none, none, none, some 1⟩
    (by decide) (by decide)

/-- The overlap condition the spec prescribes for the fallback pass:
section.last >= descriptor.first AND section.first <= descriptor.last. -/
def specOverlap (sectionFirst sectionLast descFirst descLast : Int) : Bool :=
  decide (sectionLast ≥ descFirst) && decide (sectionFirst ≤ descLast)

/-- C1: the code's behavior at the failing input.  With a single top-level
parent [10,20] (cid 1, english) and a descriptor [5,15] whose
hadithNumberFirst (5) is contained in no top-level range, the spec's overlap
condition holds against the parent (20 >= 5 and 10 <= 15), so the claim
demands attachment via the overlap fallback; but the fallback query as coded
binds its parameters swapped — it requires descriptor.last <= section.last
AND descriptor.first >= section.first — so it finds nothing and the
descriptor is skipped: the store is unchanged and the skip counter becomes 1.
This demonstrates the divergence between the claim and the code. -/
theorem C1_overlap_fallback_diverges :
    (findContainingParent 1 "english" 5
      [⟨1, "5", "english", some "P", some 10, some 20, none, none, none,
        none⟩] = none) ∧
    specOverlap 10 20 5 15 = true ∧
    (findFallbackParent 1 "english" 5 (some 15)
      [⟨1, "5", "english", some "P", some 10, some 20, none, none, none,
        none⟩] = none) ∧
    stepSubsection 1 "english"
      (⟨[], [],
        [⟨1, "5", "english", some "P", some 10, some 20, none, none, none,
          none⟩]⟩, 0, 0)
      ⟨some "1", some "S", some 5, some 15⟩
      = (⟨[], [],
          [⟨1, "5", "english", some "P", some 10, some 20, none, none, none,
            none⟩]⟩, 0, 1) := by
  refine ⟨rfl, rfl, rfl, ?_⟩
  decide

/-- C2 counterexample: a top-level section whose sectionId is the empty
string, with bounds [10,20] containing the descriptor's hadithNumberFirst
(12).  The claim demands attachment to this first containing section with
exactly one inserted row; the code's "if not parent_section_id" treats the
empty id as unmatched and skips instead, inserting nothing. -/
theorem C2_counterexample :
    (findContainingParent 1 "english" 12
      [⟨1, "", "english", some "P", some 10, some 20, none, none, none,
        none⟩] = some "") ∧
    stepSubsection 1 "english"
      (⟨[], [],
        [⟨1, "", "english", some "P", some 10, some 20, none, none, none,
          none⟩]⟩, 0, 0)
      ⟨some "7", some "S", some 12, some 15⟩
      = (⟨[], [],
          [⟨1, "", "english", some "P", some 10, some 20, none, none, none,
            none⟩]⟩, 0, 1) := by
  refine ⟨rfl, ?_⟩
  decide

/-- C2 amended: when the containment query finds a first top-level section
(row insertion order) whose bounds contain the descriptor's
hadithNumberFirst, and that section's id is non-empty, the resolver inserts
exactly one new Section row whose id is the concatenation of the parent id,
"-", and the descriptor's fileIndex, carrying the matched parent id and the
descriptor's own title and bounds (a matched parent with an empty id is
instead treated as unmatched and skipped, per the counterexample). -/
theorem C2_amended_containment_attach (cid : Nat) (lang : String)
    (db : CorpusDb) (ins sk : Nat) (sub : SubsectionDescriptor) (f : Int)
    (p fi : String)
    (hf : sub.hadithNumberFirst = some f)
    (hfi : sub.fileIndex = some fi)
    (hfind : findContainingParent cid lang f db.sections = some p)
    (hp : p ≠ "") :
    stepSubsection cid lang (db, ins, sk) sub =
      ({ db with sections := db.sections ++
          [⟨cid, p ++ "-" ++ fi, lang, sub.sectionTitle, some f,
            sub.hadithNumberLast, none, none, some p, none⟩] },
       ins + 1, sk) := by
  have hempty : p.isEmpty = false := by
    cases hq : p.isEmpty
    · rfl
    · exact absurd ((String.isEmpty_iff p).mp hq) hp
  unfold stepSubsection resolveParent
  simp only [hf, hfind, pyFalsy, hempty, Bool.false_eq_true, if_false,
    mkSubSectionRow, pyStrOpt, hfi]

/-- C2 witness: the amended statement at a concrete store (parent "3" with
bounds [10,20]) and descriptor ([12,15], fileIndex "2"): the inserted row is
"3-2" under parent "3". -/
theorem C2_witness :
    stepSubsection 1 "english"
      (⟨[], [],
        [⟨1, "3", "english", some "P", some 10, some 20, none, none, none,
          none⟩]⟩, 0, 0)
      ⟨some "2", some "S", some 12, some 15⟩
      = (⟨[], [],
          [⟨1, "3", "english", some "P", some 10, some 20, none, none, none,
            none⟩,
           ⟨1, "3-2", "english", some "S", some 12, some 15, none, none,
            some "3", none⟩]⟩, 1, 0) :=
  C2_amended_containment_attach 1 "english"
    ⟨[], [],
      [⟨1, "3", "english", some "P", some 10, some 20, none, none, none,
        none⟩]⟩ 0 0
    ⟨some "2", some "S", some 12, some 15⟩ 12 "3" "2"
    rfl rfl (by decide) (by decide)

/-- C5 counterexample: a top-level section with the empty string as id and
bounds [3,9] containing the descriptor's hadithNumberFirst (4).  The claim's
"no row inserted iff hadithNumberFirst absent or no parent found" fails
here: hadithNumberFirst is present and the containment pass finds a parent,
yet no row is inserted and the descriptor is counted as skipped, because
the code treats the falsy (empty) parent id as unmatched. -/
theorem C5_counterexample :
    ((findContainingParent 2 "bahasa" 4
      [⟨2, "", "bahasa", some "P", some 3, some 9, none, none, none,
        none⟩]).isSome = true) ∧
    stepSubsection 2 "bahasa"
      (⟨[], [],
        [⟨2, "", "bahasa", some "P", some 3, some 9, none, none, none,
          none⟩]⟩, 0, 0)
      ⟨some "1", some "S", some 4, some 8⟩
      = (⟨[], [],
          [⟨2, "", "bahasa", some "P", some 3, some 9, none, none, none,
            none⟩]⟩, 0, 1) := by
  refine ⟨rfl, ?_⟩
  decide

/-- C5 amended: processing one subsection descriptor leaves the store
unchanged and increments the skip counter by exactly one (inserting no
Section row and synthesizing no placeholder) if and only if its
hadithNumberFirst is absent or the two-pass resolution (containment then
fallback) produces a falsy parent id — no row, or a row with an empty id;
otherwise exactly one row is inserted.  In particular a descriptor lacking
hadithNumberFirst is always skipped regardless of its other fields. -/
theorem C5_amended_skip_characterization (cid : Nat) (lang : String)
    (db : CorpusDb) (ins sk : Nat) (sub : SubsectionDescriptor) :
    (((stepSubsection cid lang (db, ins, sk) sub).1 = db ∧
      (stepSubsection cid lang (db, ins, sk) sub).2.2 = sk + 1 ∧
      (stepSubsection cid lang (db, ins, sk) sub).2.1 = ins) ↔
      (match sub.hadithNumberFirst with
       | none => True
       | some f =>
         pyFalsy (resolveParent cid lang f sub.hadithNumberLast db.sections)
           = true)) ∧
    (sub.hadithNumberFirst = none →
      stepSubsection cid lang (db, ins, sk) sub = (db, ins, sk + 1)) := by
  cases hf : sub.hadithNumberFirst with
  | none =>
    constructor
    · simp [stepSubsection, hf]
    · intro
      simp [stepSubsection, hf]
  | some f =>
    refine ⟨?_, by intro h; exact absurd h (by simp)⟩
    cases hP : pyFalsy (resolveParent cid lang f sub.hadithNumberLast db.sections) with
    | true =>
      simp only [stepSubsection, hf, hP, if_true]
      simp
    | false =>
      simp only [stepSubsection, hf, hP]
      cases hpar : resolveParent cid lang f sub.hadithNumberLast db.sections with
      | none => rw [hpar] at hP; simp [pyFalsy] at hP
      | some p =>
        simp only [hpar, Bool.false_eq_true, if_false]
        constructor
        · intro hL
          have hsec := congrArg CorpusDb.sections hL.1
          simp only at hsec
          have : db.sections.length + 1 = db.sections.length := by
            conv_rhs => rw [← hsec]
            simp
          omega
        · intro hR
          exact absurd hR (by simp)

/-- C5 witness: the amended statement at a concrete input — a descriptor
with no hadithNumberFirst against an empty store is skipped, the skip
counter incremented by one and no row inserted. -/
theorem C5_witness :
    stepSubsection 1 "english" (emptyDb, 0, 0) ⟨some "4", some "S", none, some 9⟩
      = (emptyDb, 0, 1) :=
  (C5_amended_skip_characterization 1 "english" emptyDb 0 0
    ⟨some "4", some "S", none, some 9⟩).2 rfl

/-! # Collection info import lemmas (replace-on-conflict semantics) -/

/-- The rows of a collection table holding the key (cid, lang). -/
def keyRows (cid : Nat) (lang : String) (rows : List CollectionRow) :
    List CollectionRow :=
  rows.filter (fun r => r.id == cid && r.language == lang)

/-- Whether a collection-info entry resolves to the id cid. -/
def resolvesTo (cid : Nat) (e : CollectionEntry) : Bool :=
  get_collection_id (e.book_name.getD "") == some cid

/-- The last entry of the list resolving to cid (the one whose values the
importing run leaves in place for that key). -/
def lastResolving (cid : Nat) (entries : List CollectionEntry) :
    Option CollectionEntry :=
  (entries.filter (resolvesTo cid)).getLast?

theorem getLast?_cons_some {α : Type _} {l : List α} {x : α} (a : α)
    (h : l.getLast? = some x) : (a :: l).getLast? = some x := by
  cases l with
  | nil => simp at h
  | cons b bs => rw [List.getLast?_cons_cons]; exact h

theorem getLast?_ne_none {α : Type _} (a : α) (l : List α) :
    (a :: l).getLast? ≠ none := by
  induction l generalizing a with
  | nil => simp
  | cons b bs ih => rw [List.getLast?_cons_cons]; exact ih b

theorem keyRows_upsert_eq (cid : Nat) (lang : String) (e : CollectionEntry)
    (rows : List CollectionRow) :
    keyRows cid lang (upsertCollection (mkCollectionRow cid lang e) rows)
      = [mkCollectionRow cid lang e] := by
  unfold keyRows upsertCollection
  induction rows with
  | nil => simp [mkCollectionRow]
  | cons a rs ih =>
    rw [List.filter_cons]
    by_cases h : (a.id == cid && a.language == lang) = true
    · rw [if_neg (by simp [mkCollectionRow, h])]
      exact ih
    · have h' : (a.id == cid && a.language == lang) = false := by
        simpa using h
      rw [if_pos (by simp [mkCollectionRow]; simp at h'; tauto),
        List.cons_append, List.filter_cons, if_neg (by simp [h'])]
      exact ih

theorem keyRows_upsert_ne (cid c : Nat) (lang : String) (e : CollectionEntry)
    (rows : List CollectionRow) (hc : c ≠ cid) :
    keyRows cid lang (upsertCollection (mkCollectionRow c lang e) rows)
      = keyRows cid lang rows := by
  unfold keyRows upsertCollection
  induction rows with
  | nil =>
    simp only [mkCollectionRow, List.filter_nil, List.nil_append,
      List.filter_cons, List.filter_nil]
    rw [if_neg (by simp; intro hcc; exact absurd hcc hc)]
  | cons a rs ih =>
    rw [List.filter_cons]
    by_cases h : (a.id == (mkCollectionRow c lang e).id &&
        a.language == (mkCollectionRow c lang e).language) = true
    · have hid : a.id = c := by
        simp only [mkCollectionRow, Bool.and_eq_true, beq_iff_eq] at h
        exact h.1
      have hkey : (a.id == cid && a.language == lang) = false := by
        rw [hid]
        simp
        intro hcc
        exact absurd hcc hc
      rw [if_neg (by simp [h]), ih, List.filter_cons, hkey]
      simp
    · have h' : (a.id == (mkCollectionRow c lang e).id &&
          a.language == (mkCollectionRow c lang e).language) = false := by
        simpa using h
      rw [if_pos (by simp [h']), List.cons_append, List.filter_cons]
      by_cases hkey : (a.id == cid && a.language == lang) = true
      · rw [if_pos hkey, ih, List.filter_cons, if_pos hkey]
      · have hkey' : (a.id == cid && a.language == lang) = false := by
          simpa using hkey
        rw [if_neg (by simp [hkey']), ih, List.filter_cons,
          if_neg (by simp [hkey'])]

theorem lastResolving_cons_of_false {cid : Nat} {e : CollectionEntry}
    {rest : List CollectionEntry} (h : resolvesTo cid e = false) :
    lastResolving cid (e :: rest) = lastResolving cid rest := by
  unfold lastResolving
  rw [List.filter_cons, if_neg (by simp [h])]

theorem lastResolving_cons_of_true_none {cid : Nat} {e : CollectionEntry}
    {rest : List CollectionEntry} (h : resolvesTo cid e = true)
    (h2 : lastResolving cid rest = none) :
    lastResolving cid (e :: rest) = some e := by
  unfold lastResolving at h2 ⊢
  rw [List.filter_cons, if_pos h]
  have hnil : rest.filter (resolvesTo cid) = [] := by
    cases hx : rest.filter (resolvesTo cid) with
    | nil => rfl
    | cons y ys => rw [hx] at h2; exact absurd h2 (getLast?_ne_none y ys)
  rw [hnil]
  rfl

theorem lastResolving_cons_of_true_some {cid : Nat} {e e' : CollectionEntry}
    {rest : List CollectionEntry} (h : resolvesTo cid e = true)
    (h2 : lastResolving cid rest = some e') :
    lastResolving cid (e :: rest) = some e' := by
  unfold lastResolving at h2 ⊢
  rw [List.filter_cons, if_pos h]
  exact getLast?_cons_some e h2

theorem keyRows_foldl (lang : String) (cid : Nat)
    (entries : List CollectionEntry) (db : CorpusDb) :
    keyRows cid lang ((entries.foldl (stepCollection lang) db).collections) =
      (match lastResolving cid entries with
       | some e => [mkCollectionRow cid lang e]
       | none => keyRows cid lang db.collections) := by
  induction entries generalizing db with
  | nil => simp [lastResolving]
  | cons e rest ih =>
    rw [List.foldl_cons]
    cases hres : get_collection_id (e.book_name.getD "") with
    | none =>
      have hstep : stepCollection lang db e = db := by
        unfold stepCollection
        rw [hres]
      have hfil : resolvesTo cid e = false := by
        simp [resolvesTo, hres]
      rw [hstep, ih, lastResolving_cons_of_false hfil]
    | some c =>
      have hstep : stepCollection lang db e =
          { db with collections :=
              upsertCollection (mkCollectionRow c lang e) db.collections } := by
        unfold stepCollection
        rw [hres]
      rw [hstep, ih]
      by_cases hc : c = cid
      · subst hc
        have hfil : resolvesTo c e = true := by
          simp [resolvesTo, hres]
        cases hLast : lastResolving c rest with
        | some e' =>
          rw [lastResolving_cons_of_true_some hfil hLast]
        | none =>
          rw [lastResolving_cons_of_true_none hfil hLast]
          exact keyRows_upsert_eq c lang e db.collections
      · have hfil : resolvesTo cid e = false := by
          simp only [resolvesTo, hres, beq_iff_eq, Option.some.injEq]
          exact decide_eq_false hc
        rw [lastResolving_cons_of_false hfil]
        cases hLast : lastResolving cid rest with
        | some e' => rfl
        | none => exact keyRows_upsert_ne cid c lang e db.collections hc

/-- At-most-one-row-per-(id, language) key. -/
def KeyUnique (rows : List CollectionRow) : Prop :=
  rows.Pairwise (fun a b => ¬(a.id = b.id ∧ a.language = b.language))

theorem keyUnique_upsert (r : CollectionRow) (rows : List CollectionRow)
    (h : KeyUnique rows) : KeyUnique (upsertCollection r rows) := by
  unfold KeyUnique upsertCollection
  rw [List.pairwise_append]
  refine ⟨h.filter _, List.pairwise_singleton _ _, ?_⟩
  intro x hx y hy
  rw [List.mem_singleton] at hy
  subst hy
  rw [List.mem_filter] at hx
  have := hx.2
  simp only [Bool.not_eq_true', Bool.and_eq_false_iff, beq_eq_false_iff_ne] at this
  tauto

theorem keyUnique_step (lang : String) (db : CorpusDb) (e : CollectionEntry)
    (h : KeyUnique db.collections) :
    KeyUnique (stepCollection lang db e).collections := by
  unfold stepCollection
  cases hres : get_collection_id (e.book_name.getD "") with
  | none => exact h
  | some c => exact keyUnique_upsert _ _ h

theorem keyUnique_foldl (lang : String) (entries : List CollectionEntry)
    (db : CorpusDb) (h : KeyUnique db.collections) :
    KeyUnique ((entries.foldl (stepCollection lang) db).collections) := by
  induction entries generalizing db with
  | nil => exact h
  | cons e rest ih =>
    rw [List.foldl_cons]
    exact ih _ (keyUnique_step lang db e h)

/-- C8: for every (collection id, language) key, a collection-info import
leaves the rows for that key exactly as replace-on-conflict semantics
dictates: if any entry of the imported list resolves to the id, exactly one
row remains for the key, carrying the values of the last such entry of this
(most recent) import; otherwise the key's rows are untouched.  Moreover the
at-most-one-row-per-key invariant is preserved by every import.  Applying
the first part to the final import of any sequence shows that re-importing
overwrites prior values and never duplicates the key. -/
theorem C8_replace_semantics (lang : String)
    (doc : List (String × List CollectionEntry)) (db : CorpusDb) (cid : Nat) :
    (keyRows cid lang (process_collection_info lang doc db).collections =
      (match lastResolving cid ((doc.lookup "kutub_al_sittah").getD []) with
       | some e => [mkCollectionRow cid lang e]
       | none => keyRows cid lang db.collections)) ∧
    (KeyUnique db.collections →
      KeyUnique (process_collection_info lang doc db).collections) :=
  ⟨keyRows_foldl lang cid ((doc.lookup "kutub_al_sittah").getD []) db,
   keyUnique_foldl lang ((doc.lookup "kutub_al_sittah").getD []) db⟩

/-- C8 witness: importing a one-entry collections file twice into an empty
store leaves exactly one bukhari row for (1, english), and the table stays
key-unique. -/
theorem C8_witness :
    (keyRows 1 "english"
      (process_collection_info "english"
        [("kutub_al_sittah",
          [⟨some "Sahih Bukhari", some "A", some "R", some "D", some 7563⟩])]
        (process_collection_info "english"
          [("kutub_al_sittah",
            [⟨some "Sahih Bukhari", some "A", some "R", some "D", some 7563⟩])]
          emptyDb)).collections =
      [mkCollectionRow 1 "english"
        ⟨some "Sahih Bukhari", some "A", some "R", some "D", some 7563⟩]) ∧
    KeyUnique (process_collection_info "english"
      [("kutub_al_sittah",
        [⟨some "Sahih Bukhari", some "A", some "R", some "D", some 7563⟩])]
      emptyDb).collections :=
  ⟨((C8_replace_semantics "english"
      [("kutub_al_sittah",
        [⟨some "Sahih Bukhari", some "A", some "R", some "D", some 7563⟩])]
      (process_collection_info "english"
        [("kutub_al_sittah",
          [⟨some "Sahih Bukhari", some "A", some "R", some "D", some 7563⟩])]
        emptyDb) 1).1).trans (by decide),
   (C8_replace_semantics "english"
      [("kutub_al_sittah",
        [⟨some "Sahih Bukhari", some "A", some "R", some "D", some 7563⟩])]
      emptyDb 1).2 List.Pairwise.nil⟩

theorem keyPresent_step (lang : String) (db : CorpusDb) (e : CollectionEntry)
    (cid : Nat)
    (h : ∃ r ∈ db.collections, r.id = cid ∧ r.language = lang) :
    ∃ r ∈ (stepCollection lang db e).collections,
      r.id = cid ∧ r.language = lang := by
  unfold stepCollection
  cases hres : get_collection_id (e.book_name.getD "") with
  | none => exact h
  | some c =>
    obtain ⟨r, hr, hk⟩ := h
    by_cases hc : c = cid
    · subst hc
      refine ⟨mkCollectionRow c lang e, ?_, by simp [mkCollectionRow]⟩
      unfold upsertCollection
      simp
    · refine ⟨r, ?_, hk⟩
      unfold upsertCollection
      rw [List.mem_append]
      left
      rw [List.mem_filter]
      refine ⟨hr, ?_⟩
      simp only [mkCollectionRow, Bool.not_eq_true', Bool.and_eq_false_iff,
        beq_eq_false_iff_ne]
      left
      rw [hk.1]
      exact fun hh => hc hh.symm

theorem keyPresent_foldl (lang : String) (entries : List CollectionEntry)
    (db : CorpusDb) (cid : Nat)
    (h : ∃ r ∈ db.collections, r.id = cid ∧ r.language = lang) :
    ∃ r ∈ (entries.foldl (stepCollection lang) db).collections,
      r.id = cid ∧ r.language = lang := by
  induction entries generalizing db with
  | nil => exact h
  | cons e rest ih =>
    rw [List.foldl_cons]
    exact ih _ (keyPresent_step lang db e cid h)

/-- C10: collection-info import reads only the list under the exact
top-level key "kutub_al_sittah": a document without that key changes
nothing; unresolvable entries of the recognized list are silently dropped
(processing the list equals processing only its resolvable entries); and
every resolvable entry still leaves a row with its id and the import's
language in the store. -/
theorem C10_family_key_and_skips (lang : String) :
    (∀ (doc : List (String × List CollectionEntry)) (db : CorpusDb),
      doc.lookup "kutub_al_sittah" = none →
      process_collection_info lang doc db = db) ∧
    (∀ (entries : List CollectionEntry) (db : CorpusDb),
      entries.foldl (stepCollection lang) db =
        (entries.filter (fun e =>
          (get_collection_id (e.book_name.getD "")).isSome)).foldl
          (stepCollection lang) db) ∧
    (∀ (doc : List (String × List CollectionEntry)) (db : CorpusDb)
        (e : CollectionEntry) (cid : Nat),
      e ∈ (doc.lookup "kutub_al_sittah").getD [] →
      get_collection_id (e.book_name.getD "") = some cid →
      ∃ r ∈ (process_collection_info lang doc db).collections,
        r.id = cid ∧ r.language = lang) := by
  refine ⟨?_, ?_, ?_⟩
  · intro doc db h
    unfold process_collection_info
    rw [h]
    rfl
  · intro entries
    induction entries with
    | nil => intro db; rfl
    | cons e rest ih =>
      intro db
      rw [List.foldl_cons, List.filter_cons]
      cases hres : get_collection_id (e.book_name.getD "") with
      | none =>
        have hstep : stepCollection lang db e = db := by
          unfold stepCollection
          rw [hres]
        rw [if_neg (by simp [hres]), hstep]
        exact ih db
      | some c =>
        rw [if_pos (by simp [hres]), List.foldl_cons]
        exact ih _
  · intro doc db e cid hmem hres
    unfold process_collection_info
    obtain ⟨l1, l2, hsplit⟩ := List.append_of_mem hmem
    rw [hsplit, List.foldl_append, List.foldl_cons]
    refine keyPresent_foldl lang l2 _ cid ?_
    unfold stepCollection
    rw [hres]
    refine ⟨mkCollectionRow cid lang e, ?_, by simp [mkCollectionRow]⟩
    unfold upsertCollection
    simp

/-- C10 witness: a document whose collections sit under a different family
key imports nothing, and a resolvable bukhari entry under the recognized
key leaves a (1, english) row. -/
theorem C10_witness :
    (process_collection_info "english"
      [("sahih_sittah",
        [⟨some "Sahih Bukhari", some "A", some "R", some "D", some 7563⟩])]
      emptyDb = emptyDb) ∧
    (∃ r ∈ (process_collection_info "english"
        [("kutub_al_sittah",
          [⟨some "Sahih Bukhari", some "A", some "R", some "D", some 7563⟩])]
        emptyDb).collections, r.id = 1 ∧ r.language = "english") :=
  ⟨(C10_family_key_and_skips "english").1 _ emptyDb rfl,
   (C10_family_key_and_skips "english").2.2 _ emptyDb
     ⟨some "Sahih Bukhari", some "A", some "R", some "D", some 7563⟩ 1
     (List.Mem.head _) (by decide)⟩

/-! # The pipeline (main flow of converter.py) and its invariant -/

/-- One import-phase file of the main flow. -/
inductive ImportOp where
  | collectionInfo (lang : String) (doc : List (String × List CollectionEntry))
  | hadithData (basename lang : String) (smap : List (String × String))
      (doc : HadithDoc)

/-- Processing of one import-phase file. -/
def applyImport (db : CorpusDb) : ImportOp → CorpusDb
  | .collectionInfo lang doc => process_collection_info lang doc db
  | .hadithData b l s d => process_hadith_data b l s d db

/-- The complete pipeline of main(): the import phase over an empty store,
then every subsection file, then the aggregate recompute. -/
def runPipeline (imports : List ImportOp)
    (subFiles : List (String × List SubsectionDescriptor)) : CorpusDb :=
  update_subsection_counts
    (subFiles.foldl (fun db sf => process_subsection_file sf.1 sf.2 db)
      (imports.foldl applyImport emptyDb))

/-- Every section row of the store has a NULL subsectionCount (the state of
the Section table before the aggregate pass). -/
def AllCountNone (db : CorpusDb) : Prop :=
  ∀ r ∈ db.sections, r.subsectionCount = none

theorem process_collection_info_sections (lang : String)
    (doc : List (String × List CollectionEntry)) (db : CorpusDb) :
    (process_collection_info lang doc db).sections = db.sections := by
  unfold process_collection_info
  generalize (doc.lookup "kutub_al_sittah").getD [] = es
  induction es generalizing db with
  | nil => rfl
  | cons e rest ih =>
    rw [List.foldl_cons]
    have hstep : (stepCollection lang db e).sections = db.sections := by
      unfold stepCollection
      cases get_collection_id (e.book_name.getD "") <;> rfl
    rw [ih (stepCollection lang db e), hstep]

theorem allCountNone_hadithData (basename lang : String)
    (smap : List (String × String)) (doc : HadithDoc) (db : CorpusDb)
    (h : AllCountNone db) :
    AllCountNone (process_hadith_data basename lang smap doc db) := by
  unfold process_hadith_data
  cases hres : get_collection_id basename with
  | none => exact h
  | some cid =>
    intro r hr
    simp only [List.mem_append] at hr
    rcases hr with hr | hr
    · exact h r hr
    · obtain ⟨p, _, rfl⟩ := List.mem_map.mp hr
      rfl

theorem allCountNone_stepSubsection (cid : Nat) (lang : String)
    (acc : CorpusDb × Nat × Nat) (sub : SubsectionDescriptor)
    (h : AllCountNone acc.1) :
    AllCountNone (stepSubsection cid lang acc sub).1 := by
  unfold stepSubsection
  cases hf : sub.hadithNumberFirst with
  | none => exact h
  | some f =>
    dsimp only
    by_cases hP : pyFalsy (resolveParent cid lang f sub.hadithNumberLast
        acc.1.sections) = true
    · simp only [hP, if_true]
      exact h
    · have hP' : pyFalsy (resolveParent cid lang f sub.hadithNumberLast
          acc.1.sections) = false := by
        simpa using hP
      cases hpar : resolveParent cid lang f sub.hadithNumberLast
          acc.1.sections with
      | none => rw [hpar] at hP'; simp [pyFalsy] at hP'
      | some p =>
        rw [hpar] at hP'
        simp only [hP', Bool.false_eq_true, if_false]
        intro r hr
        rcases List.mem_append.mp hr with hr2 | hr2
        · exact h r hr2
        · rw [List.mem_singleton] at hr2
          subst hr2
          rfl

theorem allCountNone_subsFoldl (cid : Nat) (lang : String)
    (subs : List SubsectionDescriptor) (acc : CorpusDb × Nat × Nat)
    (h : AllCountNone acc.1) :
    AllCountNone (subs.foldl (stepSubsection cid lang) acc).1 := by
  induction subs generalizing acc with
  | nil => exact h
  | cons s rest ih =>
    rw [List.foldl_cons]
    exact ih _ (allCountNone_stepSubsection cid lang acc s h)

theorem allCountNone_subFile (basename : String)
    (subs : List SubsectionDescriptor) (db : CorpusDb)
    (h : AllCountNone db) :
    AllCountNone (process_subsection_file basename subs db) := by
  unfold process_subsection_file
  cases resolveSubsectionCid basename with
  | none => exact h
  | some c => exact allCountNone_subsFoldl c _ subs (db, 0, 0) h

theorem allCountNone_applyImport (db : CorpusDb) (op : ImportOp)
    (h : AllCountNone db) : AllCountNone (applyImport db op) := by
  cases op with
  | collectionInfo lang doc =>
    unfold applyImport AllCountNone
    rw [process_collection_info_sections]
    exact h
  | hadithData b l s d => exact allCountNone_hadithData b l s d db h

theorem allCountNone_preUpdate (imports : List ImportOp)
    (subFiles : List (String × List SubsectionDescriptor)) :
    AllCountNone
      (subFiles.foldl (fun db sf => process_subsection_file sf.1 sf.2 db)
        (imports.foldl applyImport emptyDb)) := by
  have h1 : AllCountNone (imports.foldl applyImport emptyDb) := by
    have : ∀ (ops : List ImportOp) (db : CorpusDb), AllCountNone db →
        AllCountNone (ops.foldl applyImport db) := by
      intro ops
      induction ops with
      | nil => exact fun db h => h
      | cons op rest ih =>
        intro db h
        rw [List.foldl_cons]
        exact ih _ (allCountNone_applyImport db op h)
    exact this imports emptyDb (by intro r hr; exact absurd hr (List.not_mem_nil r))
  have : ∀ (sfs : List (String × List SubsectionDescriptor)) (db : CorpusDb),
      AllCountNone db →
      AllCountNone (sfs.foldl (fun db sf => process_subsection_file sf.1 sf.2 db) db) := by
    intro sfs
    induction sfs with
    | nil => exact fun db h => h
    | cons sf rest ih =>
      intro db h
      rw [List.foldl_cons]
      exact ih _ (allCountNone_subFile sf.1 sf.2 db h)
  exact this subFiles _ h1

/-- C7: after a complete pipeline run (imports, subsection insertion, then
aggregate maintenance), a section row of the store carries a non-null
subsectionCount exactly when its parentSectionId is null: subsection rows
always carry a null count, and every top-level row carries a non-null
(possibly zero) count. -/
theorem C7_count_nonnull_iff_toplevel (imports : List ImportOp)
    (subFiles : List (String × List SubsectionDescriptor)) (r : SectionRow)
    (hr : r ∈ (runPipeline imports subFiles).sections) :
    r.subsectionCount.isSome = true ↔ r.parentSectionId = none := by
  have hpre := allCountNone_preUpdate imports subFiles
  unfold runPipeline at hr
  rw [update_subsection_counts_eq_map] at hr
  obtain ⟨r0, hr0, rfl⟩ := List.mem_map.mp hr
  by_cases h0 : r0.parentSectionId = none
  · rw [countFix_of_top _ _ h0]
    simp [h0]
  · rw [countFix_of_sub _ _ h0]
    have := hpre r0 hr0
    simp [this, h0]

/-- C7 witness: the pipeline over one metadata-form import (one section, no
records) and no subsection files; the resulting top-level row carries a
non-null zero count and a null parent. -/
theorem C7_witness :
    ((⟨1, "1", "english", some "T", none, none, none, none, none,
        some 0⟩ : SectionRow).subsectionCount.isSome = true ↔
      (⟨1, "1", "english", some "T", none, none, none, none, none,
        some 0⟩ : SectionRow).parentSectionId = none) :=
  C7_count_nonnull_iff_toplevel
    [ImportOp.hadithData "eng-bukhari.json" "english" []
      (.metaForm [] ⟨[("1", some "T")], []⟩)] []
    ⟨1, "1", "english", some "T", none, none, none, none, none, some 0⟩
    (by decide)

/-- C3 counterexample: a metadata-form document with one section and no
records.  The exporter enumerates (collection, language) pairs from the
record table, so a pair whose import carried sections but no records is
never exported: the claim that export reproduces the section set fails. -/
theorem C3_counterexample :
    export_hadith_pair 1 "english"
      (process_hadith_data "eng-bukhari.json" "english" []
        (.metaForm [] ⟨[("1", some "Title")], []⟩) emptyDb) = none ∧
    (process_hadith_data "eng-bukhari.json" "english" []
        (.metaForm [] ⟨[("1", some "Title")], []⟩) emptyDb).sections ≠ [] := by
  constructor
  · decide
  · decide

/-- C3 amended: importing a metadata-form document for a (collection,
language) pair into an empty store and then exporting that pair reproduces
the same set of section ids with the same titles and bounds, and the same
set of record ids with the same text bodies — provided the document carries
at least one record (a record-less document exports nothing, per the
counterexample) and its records are well-formed (hadithnumber and text
present, as the metadata-form shape prescribes). -/
theorem C3_amended_roundtrip (basename lang : String) (cid : Nat)
    (smap : List (String × String)) (hadiths : List HadithObj)
    (md : DocMetadata)
    (hcid : get_collection_id basename = some cid)
    (hknown : (collectionNames.lookup cid).isSome = true)
    (hne : hadiths ≠ [])
    (hwf : ∀ h ∈ hadiths, h.hadithnumber.isSome = true ∧ h.text.isSome = true) :
    ∃ ed, export_hadith_pair cid lang
        (process_hadith_data basename lang smap (.metaForm hadiths md) emptyDb)
        = some ed ∧
      (∀ (n : Int) (t : String),
        (∃ eh ∈ ed.hadiths, eh.hadithnumber = some n ∧ eh.text = t) ↔
        (∃ h ∈ hadiths, h.hadithnumber = some n ∧ h.text = some t)) ∧
      (∀ (sid : String) (title : Option String) (d : SectionDetail),
        ((sid, title) ∈ ed.sections ∧ (sid, d) ∈ ed.section_details) ↔
        ((sid, title) ∈ md.sections ∧
          d = (md.section_details.lookup sid).getD emptyDetail)) := by
  have hstore : process_hadith_data basename lang smap (.metaForm hadiths md)
      emptyDb =
      ⟨[], hadiths.map (mkRecordRow cid lang smap),
        md.sections.map (mkTopSectionRow cid lang md.section_details)⟩ := by
    unfold process_hadith_data
    rw [hcid]
    rfl
  rw [hstore]
  unfold export_hadith_pair
  obtain ⟨v, hv⟩ := Option.isSome_iff_exists.mp hknown
  rw [if_neg (by rw [hv]; simp)]
  have hfilterR : (hadiths.map (mkRecordRow cid lang smap)).filter
      (fun r => r.collectionId == cid && r.language == lang)
      = hadiths.map (mkRecordRow cid lang smap) := by
    rw [List.filter_eq_self]
    intro r hr
    obtain ⟨h0, _, rfl⟩ := List.mem_map.mp hr
    simp [mkRecordRow]
  have hfilterS : (md.sections.map
        (mkTopSectionRow cid lang md.section_details)).filter
      (fun s => s.collectionId == cid && s.language == lang &&
        s.parentSectionId == none)
      = md.sections.map (mkTopSectionRow cid lang md.section_details) := by
    rw [List.filter_eq_self]
    intro s hs
    obtain ⟨p, _, rfl⟩ := List.mem_map.mp hs
    simp [mkTopSectionRow]
  simp only [hfilterR, hfilterS]
  rw [if_neg (by
    cases hadiths with
    | nil => exact absurd rfl hne
    | cons a as => simp)]
  refine ⟨_, rfl, ?_, ?_⟩
  · intro n t
    constructor
    · rintro ⟨eh, hmem, hn, ht⟩
      obtain ⟨r, hrs, rfl⟩ := List.mem_map.mp hmem
      rw [mem_sortByLe] at hrs
      obtain ⟨h0, hh0, rfl⟩ := List.mem_map.mp hrs
      refine ⟨h0, hh0, ?_, ?_⟩
      · exact hn
      · obtain ⟨tv, htv⟩ := Option.isSome_iff_exists.mp (hwf h0 hh0).2
        rw [htv]
        rw [← ht]
        simp [mkRecordRow, htv]
    · rintro ⟨h0, hh0, hn, ht⟩
      refine ⟨⟨h0.hadithnumber, h0.arabicnumber, h0.text.getD ""⟩, ?_, hn, ?_⟩
      · rw [List.mem_map]
        refine ⟨mkRecordRow cid lang smap h0, ?_, rfl⟩
        rw [mem_sortByLe, List.mem_map]
        exact ⟨h0, hh0, rfl⟩
      · rw [ht]
        rfl
  · intro sid title d
    constructor
    · rintro ⟨hsec, hdet⟩
      obtain ⟨s, hss, hpair⟩ := List.mem_map.mp hsec
      rw [mem_sortByLe] at hss
      obtain ⟨p, hp, rfl⟩ := List.mem_map.mp hss
      obtain ⟨s2, hss2, hpair2⟩ := List.mem_map.mp hdet
      rw [mem_sortByLe] at hss2
      obtain ⟨p2, _, rfl⟩ := List.mem_map.mp hss2
      have h1 : p.1 = sid ∧ p.2 = title := by
        have := hpair
        simp only [mkTopSectionRow, Prod.mk.injEq] at this
        exact this
      have h2 : p2.1 = sid ∧
          d = (md.section_details.lookup p2.1).getD emptyDetail := by
        have := hpair2
        simp only [mkTopSectionRow, Prod.mk.injEq] at this
        exact ⟨this.1, this.2.symm⟩
      constructor
      · have : p = (sid, title) := Prod.ext h1.1 h1.2
        rw [← this]
        exact hp
      · rw [h2.2, h2.1]
    · rintro ⟨hsec, hd⟩
      constructor
      · rw [List.mem_map]
        refine ⟨mkTopSectionRow cid lang md.section_details (sid, title),
          ?_, rfl⟩
        rw [mem_sortByLe, List.mem_map]
        exact ⟨(sid, title), hsec, rfl⟩
      · rw [List.mem_map]
        refine ⟨mkTopSectionRow cid lang md.section_details (sid, title),
          ?_, ?_⟩
        · rw [mem_sortByLe, List.mem_map]
          exact ⟨(sid, title), hsec, rfl⟩
        · simp only [mkTopSectionRow]
          rw [hd]

/-- C3 witness: the amended round-trip at a concrete one-record, one-section
bukhari document. -/
theorem C3_witness :
    ∃ ed, export_hadith_pair 1 "english"
        (process_hadith_data "eng-bukhari.json" "english" []
          (.metaForm [⟨some 1, some 1, some "body", none, none, none, none,
            none⟩] ⟨[("1", some "T")], [("1", ⟨some 1, some 5, none, none⟩)]⟩)
          emptyDb) = some ed ∧
      (∀ (n : Int) (t : String),
        (∃ eh ∈ ed.hadiths, eh.hadithnumber = some n ∧ eh.text = t) ↔
        (∃ h ∈ [(⟨some 1, some 1, some "body", none, none, none, none,
            none⟩ : HadithObj)], h.hadithnumber = some n ∧ h.text = some t)) ∧
      (∀ (sid : String) (title : Option String) (d : SectionDetail),
        ((sid, title) ∈ ed.sections ∧ (sid, d) ∈ ed.section_details) ↔
        ((sid, title) ∈ [("1", some "T")] ∧
          d = ([("1", (⟨some 1, some 5, none, none⟩ : SectionDetail))].lookup
            sid).getD emptyDetail)) :=
  C3_amended_roundtrip "eng-bukhari.json" "english" 1 []
    [⟨some 1, some 1, some "body", none, none, none, none, none⟩]
    ⟨[("1", some "T")], [("1", ⟨some 1, some 5, none, none⟩)]⟩
    (by decide) (by decide) (by simp)
    (by intro h hh; rw [List.mem_singleton] at hh; subst hh; exact ⟨rfl, rfl⟩)
